import Mathlib

/-!
# AlphaRise — verification of the simulation-and-metrics engine

Shallow embedding, over exact rationals, of the core of the AlphaRise
backtesting engine:

* `runStrategies` (src/src/utils/strategies.js) — the day-by-day walk of the
  Variable-Policy Simulator (V_DCA), the Capital-Matched Baseline
  ("Standard DCA") and the Lump-Sum Benchmark ("HODL"),
* `calcMetrics` (calculations.js) — the Sharpe/Sortino/annualized-return layer,
* `calculateZone1BuyAmount` etc. (strategyCalculations.js) — the shared
  zone-buy helpers,
* the zone/action logic of `RecommendationCard.jsx`.

JavaScript numbers are modelled as `ℚ`; `Math.sqrt` and `Math.pow`, the only
non-rational primitives the code uses, are passed in as explicit function
parameters.  Display-only formatting (`toFixed`, `Math.round` inside rendered
strings, colours) is not part of the model.  A JS record field that an object
simply does not have (the HODL state has no `cash`/`interest`/`cashHistory`
keys) is modelled as an `Option` field holding `none`.
-/

namespace AlphaRise

/-- One enriched market day as consumed by `runStrategies`: date (as an epoch
day number — JS `Date` comparison is numeric on timestamps), price, CBBI
sentiment index, and the three EMAs. -/
structure MarketDay where
  date : ℕ
  price : ℚ
  cbbi : ℚ
  ema20 : ℚ
  ema50 : ℚ
  ema100 : ℚ
deriving Repr, DecidableEq

/-- The caller-supplied parameter set of `runStrategies`. -/
structure Params where
  initialCapital : ℚ
  baseDCA : ℚ
  t1 : ℚ
  t3 : ℚ
  f1 : ℚ
  f3 : ℚ
  sellFactor : ℚ
  simulatePeak : Bool
deriving Repr, DecidableEq

/-- `const DAILY_INTEREST = 0.045 / 365`. -/
def DAILY_INTEREST : ℚ := (45 / 1000) / 365

/-- Epoch day of `"2025-07-15"`, the lower bound of the simulate-peak window. -/
def peakWindowLo : ℕ := 20284

/-- Epoch day of `"2025-09-01"`, the upper bound of the simulate-peak window. -/
def peakWindowHi : ℕ := 20332

/-- The CBBI value actually used for a day: `simulatePeak` forces it to 95
inside the open date window, otherwise the day's own value is used. -/
def effectiveCbbi (p : Params) (d : MarketDay) : ℚ :=
  if p.simulatePeak ∧ peakWindowLo < d.date ∧ d.date < peakWindowHi then 95 else d.cbbi

/-- The three market regimes.  The JS code encodes them as 1 / 2 / 3. -/
inductive Zone
  | accumulation
  | neutral
  | reduction
deriving Repr, DecidableEq

/-- The zone classifier, exactly the `if`/`else if`/`else` chain shared by
`runStrategies`, `calculateAndStoreDailyAnalysis` and `RecommendationCard`:
zone 1 when `price < ema50 && cbbi < t1`, else zone 3 when
`price > ema20 && cbbi > t3`, else zone 2. -/
def classifyZone (price ema20 ema50 cbbi t1 t3 : ℚ) : Zone :=
  if price < ema50 ∧ cbbi < t1 then Zone.accumulation
  else if ema20 < price ∧ t3 < cbbi then Zone.reduction
  else Zone.neutral

/-- Result of the per-day zone branch of the V_DCA walk (lines 66–101 of
strategies.js): fresh injection, reserve drain, the USD actually bought, and
the cash/BTC balances after the branch (before the buy is executed). -/
structure ZoneExec where
  zone : Zone
  freshInput : ℚ
  reserveInput : ℚ
  actualBuyUSD : ℚ
  cash : ℚ
  btc : ℚ
deriving Repr, DecidableEq

/-- The V_DCA per-day branch, applied to the post-interest cash reserve and
current BTC holdings.  Mirrors strategies.js lines 66–101:
* zone 1: `freshInput = baseDCA*f1`; turbo drain
  `reserveInput = min(cash, baseDCA*f3 + cash/15)` subtracted from cash;
  buy `freshInput + reserveInput`;
* zone 3: `freshInput = baseDCA*f3`; sell `sellFactor`% of BTC into cash;
  buy `freshInput`; bank `baseDCA - freshInput` into cash when positive;
* zone 2: buy `baseDCA`. -/
def vdcaBranch (baseDCA f1 f3 sellFactor t1 t3 price ema20 ema50 cbbi cash btc : ℚ) :
    ZoneExec :=
  if price < ema50 ∧ cbbi < t1 then
    let freshInput := baseDCA * f1
    let drainTarget := baseDCA * f3 + cash / 15
    let reserveInput := min cash drainTarget
    { zone := Zone.accumulation, freshInput := freshInput, reserveInput := reserveInput,
      actualBuyUSD := freshInput + reserveInput, cash := cash - reserveInput, btc := btc }
  else if ema20 < price ∧ t3 < cbbi then
    let freshInput := baseDCA * f3
    let sellBTC := btc * (sellFactor / 100)
    let cashAfterSell := cash + sellBTC * price
    let unspent := baseDCA - freshInput
    { zone := Zone.reduction, freshInput := freshInput, reserveInput := 0,
      actualBuyUSD := freshInput,
      cash := if 0 < unspent then cashAfterSell + unspent else cashAfterSell,
      btc := btc - sellBTC }
  else
    { zone := Zone.neutral, freshInput := baseDCA, reserveInput := 0,
      actualBuyUSD := baseDCA, cash := cash, btc := btc }

/-- The V_DCA `StrategyState`: BTC held, cumulative fresh contributions
(`usd`), cash reserve, cumulative interest, and the four history sequences. -/
structure VState where
  btc : ℚ
  usd : ℚ
  cash : ℚ
  interest : ℚ
  val : List ℚ
  investedHistory : List ℚ
  returns : List ℚ
  cashHistory : List ℚ
deriving Repr, DecidableEq

/-- Day-0 seed state of V_DCA: no BTC, no contributions, the full initial
capital as cash reserve, seed history entries. -/
def vdcaInit (initialCapital : ℚ) : VState :=
  { btc := 0, usd := 0, cash := initialCapital, interest := 0,
    val := [initialCapital], investedHistory := [0], returns := [],
    cashHistory := [initialCapital] }

/-- One post-seed day of the V_DCA walk: compound daily interest into the
reserve, branch on the zone of the (possibly overridden) CBBI, execute the
buy at the day's price, update `usd`, histories and the backed-out daily
return `(newVal − freshInput)/prevVal − 1`. -/
def vdcaStep (p : Params) (s : VState) (d : MarketDay) : VState :=
  let cbbi := effectiveCbbi p d
  let dailyInt := s.cash * DAILY_INTEREST
  let cash0 := s.cash + dailyInt
  let b := vdcaBranch p.baseDCA p.f1 p.f3 p.sellFactor p.t1 p.t3
      d.price d.ema20 d.ema50 cbbi cash0 s.btc
  let btc1 := b.btc + b.actualBuyUSD / d.price
  let usd1 := s.usd + b.freshInput
  let newVal := btc1 * d.price + b.cash
  let prevVal := s.val.getLastD 0
  { btc := btc1, usd := usd1, cash := b.cash, interest := s.interest + dailyInt,
    val := s.val ++ [newVal],
    investedHistory := s.investedHistory ++ [usd1],
    returns := s.returns ++ [(newVal - b.freshInput) / prevVal - 1],
    cashHistory := s.cashHistory ++ [b.cash] }

/-- The whole V_DCA walk over the post-seed days (the `forEach` skips
index 0, so the caller passes `subset.drop 1` here). -/
def runVdca (p : Params) (rest : List MarketDay) : VState :=
  rest.foldl (vdcaStep p) (vdcaInit p.initialCapital)

/-- The Capital-Matched Baseline ("Standard DCA") state: same shape as
`VState` but without an `interest` accumulator (the JS object has no
`interest` key). -/
structure DState where
  btc : ℚ
  usd : ℚ
  cash : ℚ
  val : List ℚ
  investedHistory : List ℚ
  returns : List ℚ
  cashHistory : List ℚ
deriving Repr, DecidableEq

/-- Day-0 seed state of the Standard DCA baseline. -/
def dcaInit (initialCapital : ℚ) : DState :=
  { btc := 0, usd := 0, cash := initialCapital,
    val := [initialCapital], investedHistory := [0], returns := [],
    cashHistory := [initialCapital] }

/-- One post-seed day of the Standard DCA baseline: compound the same daily
interest into its reserve, buy the fixed `scaledDailyDCA` amount at the day's
price, update histories and the backed-out daily return. -/
def dcaStep (scaled : ℚ) (s : DState) (d : MarketDay) : DState :=
  let dailyInt := s.cash * DAILY_INTEREST
  let cash0 := s.cash + dailyInt
  let prevVal := s.val.getLastD 0
  let btc1 := s.btc + scaled / d.price
  let usd1 := s.usd + scaled
  let newVal := btc1 * d.price + cash0
  { btc := btc1, usd := usd1, cash := cash0,
    val := s.val ++ [newVal],
    investedHistory := s.investedHistory ++ [usd1],
    returns := s.returns ++ [(newVal - scaled) / prevVal - 1],
    cashHistory := s.cashHistory ++ [cash0] }

/-- The whole Standard DCA walk over the post-seed days. -/
def runDca (scaled initialCapital : ℚ) (rest : List MarketDay) : DState :=
  rest.foldl (dcaStep scaled) (dcaInit initialCapital)

/-- `totalFreshUSD / (subset.length - 1 || 1)`: the Baseline's constant daily
contribution.  In JS, `x || 1` replaces a zero `x` by 1, so a one-day series
divides by 1 instead of 0. -/
def scaledDailyDCA (totalFresh : ℚ) (n : ℕ) : ℚ :=
  totalFresh / (if (n : ℤ) - 1 = 0 then 1 else (((n : ℤ) - 1 : ℤ) : ℚ))

/-- Day-over-day percentage changes `(v[i] − v[i−1]) / v[i−1]`, the HODL
benchmark's return series. -/
def pctChanges (l : List ℚ) : List ℚ :=
  List.zipWith (fun a b => (b - a) / a) l (l.drop 1)

/-- Performance metrics as numeric values (the JS code formats them with
`toFixed` for display; `yoy` is the annualized return in percent). -/
structure Metrics where
  sharpe : ℚ
  sortino : ℚ
  yoy : ℚ
deriving Repr, DecidableEq

/-- `calcMetrics` (calculations.js) over exact rationals.  `sqrtf` models
`Math.sqrt` and `powf` models `Math.pow`; squaring, done in JS via
`Math.pow(_, 2)`, is exact and embedded as `^2`.  Degenerate input (fewer
than 2 returns) returns the zero-valued record.  The `x || 1` guards on the
annualized deviations are `if x = 0 then 1 else x`. -/
def calcMetrics (sqrtf : ℚ → ℚ) (powf : ℚ → ℚ → ℚ)
    (returns investedHistory values : List ℚ) : Metrics :=
  if returns.length < 2 then { sharpe := 0, sortino := 0, yoy := 0 }
  else
    let n : ℚ := returns.length
    let mean := (returns.foldl (· + ·) 0) / n
    let variance := (returns.foldl (fun sq r => sq + (r - mean) ^ 2) 0) / n
    let dailyStd := sqrtf variance
    let annualStd := dailyStd * sqrtf 365
    let downVariance := (returns.foldl (fun sq r => if r < 0 then sq + r ^ 2 else sq) 0) / n
    let annualDownStd := sqrtf downVariance * sqrtf 365
    let rf : ℚ := 45 / 1000
    let annualMean := mean * 365
    let sharpe := (annualMean - rf) / (if annualStd = 0 then 1 else annualStd)
    let sortino := (annualMean - rf) / (if annualDownStd = 0 then 1 else annualDownStd)
    let endVal := values.getLastD 0
    let profit := endVal - investedHistory.getLastD 0
    let avgCapital := (investedHistory.foldl (· + ·) 0) / (investedHistory.length : ℚ)
    let years := n / 365
    let totalRetPct := profit / avgCapital
    let annualizedRet :=
      if 0 < years ∧ 0 < avgCapital then powf (1 + totalRetPct) (1 / years) - 1 else 0
    { sharpe := sharpe, sortino := sortino, yoy := annualizedRet * 100 }

/-- The `!returns ||` half of the degenerate-input guard: a caller passing no
return sequence at all (JS `undefined`/`null`) gets the zero record too. -/
def calcMetricsOpt (sqrtf : ℚ → ℚ) (powf : ℚ → ℚ → ℚ)
    (returns : Option (List ℚ)) (investedHistory values : List ℚ) : Metrics :=
  match returns with
  | none => { sharpe := 0, sortino := 0, yoy := 0 }
  | some rs => calcMetrics sqrtf powf rs investedHistory values

/-- One strategy's slice of the engine's output.  Fields a given JS strategy
object does not carry (`cash`/`interest`/`cashHistory` on HODL, `interest` on
Standard DCA) are `none`. -/
structure StrategyOut where
  name : String
  btc : ℚ
  usd : ℚ
  cash : Option ℚ
  interest : Option ℚ
  val : List ℚ
  investedHistory : List ℚ
  returns : List ℚ
  cashHistory : Option (List ℚ)
  metrics : Metrics
deriving Repr, DecidableEq

/-- The `recData` snapshot of the last day plus the final V_DCA reserve and
interest, handed to `RecommendationCard`. -/
structure RecData where
  date : ℕ
  price : ℚ
  cbbi : ℚ
  ema20 : ℚ
  ema50 : ℚ
  ema100 : ℚ
  cash : ℚ
  interest : ℚ
deriving Repr, DecidableEq

/-- The full engine output (`runStrategies` return object).  The JS
`strategies` array is `[s_hodl, s_dca, s_vdca]`, held here as three named
fields. -/
structure RunResult where
  dates : List ℕ
  prices : List ℚ
  zones : List Zone
  cbbis : List ℚ
  hodl : StrategyOut
  dca : StrategyOut
  vdca : StrategyOut
  recData : RecData
  z1 : ℕ
  z2 : ℕ
  z3 : ℕ
deriving Repr, DecidableEq

/-- `runStrategies` (strategies.js): `null` on an empty series; otherwise run
the V_DCA walk, derive the capital-matched constant, run the Standard DCA
walk, build the HODL trajectory from the first-day price, attach metrics, and
snapshot the last day into `recData`. -/
def runStrategies (sqrtf : ℚ → ℚ) (powf : ℚ → ℚ → ℚ)
    (p : Params) (subset : List MarketDay) : Option RunResult :=
  match subset with
  | [] => none
  | d0 :: rest =>
    let startPrice := d0.price
    let v := runVdca p rest
    let totalFreshUSD := v.usd
    let scaled := scaledDailyDCA totalFreshUSD (d0 :: rest).length
    let s := runDca scaled p.initialCapital rest
    let totalHodlBTC := p.initialCapital / startPrice + totalFreshUSD / startPrice
    let hodlVals := (d0 :: rest).map (fun d => totalHodlBTC * d.price)
    let hodlInv := (d0 :: rest).map (fun _ => totalFreshUSD)
    let hodlReturns := pctChanges hodlVals
    let zones := rest.map (fun d =>
      classifyZone d.price d.ema20 d.ema50 (effectiveCbbi p d) p.t1 p.t3)
    let last := (d0 :: rest).getLast (by simp)
    some
      { dates := (d0 :: rest).map (·.date)
        prices := (d0 :: rest).map (·.price)
        zones := zones
        cbbis := rest.map (effectiveCbbi p)
        hodl :=
          { name := "HODL (Equivalent)", btc := totalHodlBTC, usd := v.usd,
            cash := none, interest := none,
            val := hodlVals, investedHistory := hodlInv, returns := hodlReturns,
            cashHistory := none,
            metrics := calcMetrics sqrtf powf hodlReturns hodlInv hodlVals }
        dca :=
          { name := "Standard DCA", btc := s.btc, usd := s.usd,
            cash := some s.cash, interest := none,
            val := s.val, investedHistory := s.investedHistory, returns := s.returns,
            cashHistory := some s.cashHistory,
            metrics := calcMetrics sqrtf powf s.returns s.investedHistory s.val }
        vdca :=
          { name := "V_DCA", btc := v.btc, usd := v.usd,
            cash := some v.cash, interest := some v.interest,
            val := v.val, investedHistory := v.investedHistory, returns := v.returns,
            cashHistory := some v.cashHistory,
            metrics := calcMetrics sqrtf powf v.returns v.investedHistory v.val }
        recData :=
          { date := last.date, price := last.price, cbbi := last.cbbi,
            ema20 := last.ema20, ema50 := last.ema50, ema100 := last.ema100,
            cash := v.cash, interest := v.interest }
        z1 := zones.count Zone.accumulation
        z2 := zones.count Zone.neutral
        z3 := zones.count Zone.reduction }

/-- `calculateZone1BuyAmount` (strategyCalculations.js): the shared zone-1 buy
calculation over fresh input, drain amount and total buy. -/
structure Zone1Buy where
  freshInput : ℚ
  drainAmount : ℚ
  totalBuyUSD : ℚ
deriving Repr, DecidableEq

/-- `calculateZone1BuyAmount(baseDCA, f1, f3, reserveCash)`: fresh input
`baseDCA*f1`, drain target `baseDCA*f3 + reserveCash/15` capped at the
reserve, total buy their sum. -/
def calculateZone1BuyAmount (baseDCA f1 f3 reserveCash : ℚ) : Zone1Buy :=
  let freshInput := baseDCA * f1
  let drainTarget := baseDCA * f3 + reserveCash / 15
  let drainAmount := min reserveCash drainTarget
  { freshInput := freshInput, drainAmount := drainAmount,
    totalBuyUSD := freshInput + drainAmount }

/-- The zone label and suggested buy amount computed by
`RecommendationCard.jsx` from the `recData` snapshot (the card renders the
amount inside a string, rounding it for display; the computed amount itself
is embedded here). -/
def recCard (baseDCA t1 t3 f1 f3 : ℚ) (rec : RecData) : Zone × ℚ :=
  if rec.price < rec.ema50 ∧ rec.cbbi < t1 then
    let target := baseDCA * f1
    let drain := baseDCA * f3 + rec.cash / 15
    let fromReserve := min rec.cash drain
    (Zone.accumulation, target + fromReserve)
  else if rec.ema20 < rec.price ∧ t3 < rec.cbbi then
    (Zone.reduction, baseDCA * f3)
  else
    (Zone.neutral, baseDCA)

/-! Concrete instances used to witness the universal statements: the spec's
Accumulation-day and Reduction-day scenarios, and small fixed series. -/

/-- Parameters of the spec's Accumulation-day scenario: `baseDCA=20,
t1=60, t3=77, f1=10, f3=0, sellFactor=2`. -/
def pAcc : Params :=
  { initialCapital := 1500, baseDCA := 20, t1 := 60, t3 := 77,
    f1 := 10, f3 := 0, sellFactor := 2, simulatePeak := false }

/-- State with a `$1500` cash reserve (the scenario's `cashReserve`). -/
def sAcc : VState := vdcaInit 1500

/-- The scenario day: `price=90000 < emaMid=95000`, `sentimentIndex=55 < t1`. -/
def dAcc : MarketDay :=
  { date := 0, price := 90000, cbbi := 55, ema20 := 90000, ema50 := 95000, ema100 := 90000 }

/-- Reduction-day parameters with `f3 = 2` (so `baseDCA − baseDCA·f3 < 0`). -/
def pRed : Params :=
  { initialCapital := 0, baseDCA := 20, t1 := 60, t3 := 77,
    f1 := 10, f3 := 2, sellFactor := 2, simulatePeak := false }

/-- Parameters of the spec's Reduction-day scenario (`f3 = 0`). -/
def pRed0 : Params :=
  { initialCapital := 0, baseDCA := 20, t1 := 60, t3 := 77,
    f1 := 10, f3 := 0, sellFactor := 2, simulatePeak := false }

/-- State holding `0.5` BTC and an empty cash reserve (so the day's interest
is zero and the cash delta is exactly the branch's doing). -/
def sRed : VState :=
  { btc := 1 / 2, usd := 0, cash := 0, interest := 0,
    val := [0], investedHistory := [0], returns := [], cashHistory := [0] }

/-- The scenario day: `price=120000 > emaShort=110000`, `sentimentIndex=82 > t3`. -/
def dRed : MarketDay :=
  { date := 0, price := 120000, cbbi := 82, ema20 := 110000, ema50 := 100000, ema100 := 110000 }

/-- A placeholder model of `Math.sqrt` used to instantiate witnesses; it
satisfies `sqrt 0 = 0`. -/
def sqrtZero : ℚ → ℚ := fun _ => 0

/-- A placeholder model of `Math.pow` used to instantiate witnesses. -/
def powZero : ℚ → ℚ → ℚ := fun _ _ => 0

/-- A two-day witness series: a seed day and one neutral day. -/
def dW0 : MarketDay :=
  { date := 0, price := 100, cbbi := 50, ema20 := 100, ema50 := 100, ema100 := 100 }

/-- The second day of the witness series (classifies Neutral: price equals
the EMAs, so neither strict comparison fires). -/
def dW1 : MarketDay :=
  { date := 1, price := 110, cbbi := 50, ema20 := 110, ema50 := 110, ema100 := 110 }

/-- Parameters for the witness series runs. -/
def pW : Params :=
  { initialCapital := 1000, baseDCA := 20, t1 := 60, t3 := 77,
    f1 := 10, f3 := 0, sellFactor := 2, simulatePeak := false }

section Theorems

/-- The classifier returns `accumulation` exactly when the zone-1 condition
holds. -/
theorem classifyZone_eq_accumulation_iff (price ema20 ema50 cbbi t1 t3 : ℚ) :
    classifyZone price ema20 ema50 cbbi t1 t3 = Zone.accumulation ↔
      price < ema50 ∧ cbbi < t1 := by
  unfold classifyZone
  split_ifs <;> simp_all

/-- The classifier returns `reduction` exactly when the zone-1 condition fails
and the zone-3 condition holds. -/
theorem classifyZone_eq_reduction_iff (price ema20 ema50 cbbi t1 t3 : ℚ) :
    classifyZone price ema20 ema50 cbbi t1 t3 = Zone.reduction ↔
      ¬(price < ema50 ∧ cbbi < t1) ∧ (ema20 < price ∧ t3 < cbbi) := by
  unfold classifyZone
  split_ifs <;> simp_all

/-- The per-day V_DCA step on a day whose effective CBBI classifies as
`accumulation`, written in terms of the post-interest reserve `cash0`. -/
theorem vdcaStep_accumulation (p : Params) (s : VState) (d : MarketDay)
    (hz : classifyZone d.price d.ema20 d.ema50 (effectiveCbbi p d) p.t1 p.t3 =
      Zone.accumulation) :
    (vdcaStep p s d).usd = s.usd + p.baseDCA * p.f1 ∧
    (vdcaStep p s d).cash =
      s.cash + s.cash * DAILY_INTEREST -
        min (s.cash + s.cash * DAILY_INTEREST)
          (p.baseDCA * p.f3 + (s.cash + s.cash * DAILY_INTEREST) / 15) ∧
    (vdcaStep p s d).btc =
      s.btc + (p.baseDCA * p.f1 +
        min (s.cash + s.cash * DAILY_INTEREST)
          (p.baseDCA * p.f3 + (s.cash + s.cash * DAILY_INTEREST) / 15)) / d.price := by
  have h1 := (classifyZone_eq_accumulation_iff d.price d.ema20 d.ema50
    (effectiveCbbi p d) p.t1 p.t3).mp hz
  simp only [vdcaStep, vdcaBranch]
  rw [if_pos h1]
  exact ⟨rfl, rfl, rfl⟩

/-- The per-day V_DCA step on a day whose effective CBBI classifies as
`reduction`: fresh injection `baseDCA*f3`, `sellFactor`% of holdings sold
into the reserve, and the unspent part banked only when positive. -/
theorem vdcaStep_reduction (p : Params) (s : VState) (d : MarketDay)
    (hz : classifyZone d.price d.ema20 d.ema50 (effectiveCbbi p d) p.t1 p.t3 =
      Zone.reduction) :
    (vdcaStep p s d).usd = s.usd + p.baseDCA * p.f3 ∧
    (vdcaStep p s d).btc =
      s.btc - s.btc * (p.sellFactor / 100) + p.baseDCA * p.f3 / d.price ∧
    (vdcaStep p s d).cash =
      s.cash + s.cash * DAILY_INTEREST + s.btc * (p.sellFactor / 100) * d.price +
        max 0 (p.baseDCA - p.baseDCA * p.f3) := by
  have h := (classifyZone_eq_reduction_iff d.price d.ema20 d.ema50
    (effectiveCbbi p d) p.t1 p.t3).mp hz
  simp only [vdcaStep, vdcaBranch]
  rw [if_neg h.1, if_pos h.2]
  refine ⟨rfl, rfl, ?_⟩
  by_cases hu : 0 < p.baseDCA - p.baseDCA * p.f3
  · rw [if_pos hu, max_eq_right hu.le]
  · rw [if_neg hu, max_eq_left (not_lt.mp hu), add_zero]

/-- C1: on every Accumulation-classified day of the V_DCA walk the fresh
injection is `baseDCA·f1`, the drain target is `baseDCA·f3 + cashReserve/15`
(on the post-interest reserve), the drained amount `min(cashReserve,
drainTarget)` is subtracted from the reserve, and the total buy (the BTC
increment times the price) is the fresh injection plus the drained amount;
in particular, with price 90000, emaMid 95000, sentiment 55, t1 60, t3 77,
baseDCA 20, f1 10, f3 0 and a 1500 reserve, the day classifies Accumulation
with fresh injection 200, drain 100, total buy 300 and a 1400 reserve after
the drain (interest set aside, via the shared `calculateZone1BuyAmount`
helper). -/
theorem accumulation_day_spec (p : Params) (s : VState) (d : MarketDay)
    (hz : classifyZone d.price d.ema20 d.ema50 (effectiveCbbi p d) p.t1 p.t3 =
      Zone.accumulation) :
    ((vdcaStep p s d).usd = s.usd + p.baseDCA * p.f1 ∧
     (vdcaStep p s d).cash =
       s.cash + s.cash * DAILY_INTEREST -
         min (s.cash + s.cash * DAILY_INTEREST)
           (p.baseDCA * p.f3 + (s.cash + s.cash * DAILY_INTEREST) / 15) ∧
     (vdcaStep p s d).btc =
       s.btc + (p.baseDCA * p.f1 +
         min (s.cash + s.cash * DAILY_INTEREST)
           (p.baseDCA * p.f3 + (s.cash + s.cash * DAILY_INTEREST) / 15)) / d.price) ∧
    (classifyZone 90000 90000 95000 55 60 77 = Zone.accumulation ∧
     calculateZone1BuyAmount 20 10 0 1500 =
       { freshInput := 200, drainAmount := 100, totalBuyUSD := 300 } ∧
     (1500 : ℚ) - (calculateZone1BuyAmount 20 10 0 1500).drainAmount = 1400) :=
  ⟨vdcaStep_accumulation p s d hz,
   by norm_num [classifyZone],
   by norm_num [calculateZone1BuyAmount],
   by norm_num [calculateZone1BuyAmount]⟩

/-- Witness for C1: the universal part applied to the scenario's parameters,
a 1500-reserve state and the scenario day. -/
theorem accumulation_day_spec_witness :
    ((vdcaStep pAcc sAcc dAcc).usd = sAcc.usd + pAcc.baseDCA * pAcc.f1 ∧
     (vdcaStep pAcc sAcc dAcc).cash =
       sAcc.cash + sAcc.cash * DAILY_INTEREST -
         min (sAcc.cash + sAcc.cash * DAILY_INTEREST)
           (pAcc.baseDCA * pAcc.f3 + (sAcc.cash + sAcc.cash * DAILY_INTEREST) / 15) ∧
     (vdcaStep pAcc sAcc dAcc).btc =
       sAcc.btc + (pAcc.baseDCA * pAcc.f1 +
         min (sAcc.cash + sAcc.cash * DAILY_INTEREST)
           (pAcc.baseDCA * pAcc.f3 + (sAcc.cash + sAcc.cash * DAILY_INTEREST) / 15)) / dAcc.price) ∧
    (classifyZone 90000 90000 95000 55 60 77 = Zone.accumulation ∧
     calculateZone1BuyAmount 20 10 0 1500 =
       { freshInput := 200, drainAmount := 100, totalBuyUSD := 300 } ∧
     (1500 : ℚ) - (calculateZone1BuyAmount 20 10 0 1500).drainAmount = 1400) :=
  accumulation_day_spec pAcc sAcc dAcc
    (by norm_num [classifyZone, effectiveCbbi, pAcc, dAcc])

/-- Counterexample to C2 as stated: with `f3 = 2` on a Reduction-classified
day (so `baseDCA − baseDCA·f3 = −20`), the code does not bank the negative
"unspent" amount: starting from a zero reserve and 0.5 BTC at price 120000,
the reserve ends at 1200 (the sale proceeds alone), not at
`soldUnits·price + (baseDCA − baseDCA·f3) = 1180` as the claim's formula
requires. -/
theorem reduction_banking_counterexample :
    classifyZone dRed.price dRed.ema20 dRed.ema50 (effectiveCbbi pRed dRed)
      pRed.t1 pRed.t3 = Zone.reduction ∧
    (vdcaStep pRed sRed dRed).cash = 1200 ∧
    ¬ ((vdcaStep pRed sRed dRed).cash =
        sRed.cash + sRed.cash * DAILY_INTEREST +
          sRed.btc * (pRed.sellFactor / 100) * dRed.price +
          (pRed.baseDCA - pRed.baseDCA * pRed.f3)) :=
  ⟨by norm_num [classifyZone, effectiveCbbi, pRed, dRed],
   by norm_num [vdcaStep, vdcaBranch, effectiveCbbi, DAILY_INTEREST, pRed, sRed, dRed],
   by norm_num [vdcaStep, vdcaBranch, effectiveCbbi, DAILY_INTEREST, pRed, sRed, dRed]⟩

/-- C2 (amended): on every Reduction-classified day the fresh injection is
`baseDCA·f3`, `sellFactor`% of the holdings is sold at the day's price with
the proceeds added to the reserve, and the unspent portion
`baseDCA − baseDCA·f3` is banked only when it is positive — the reserve
increases by `soldUnits·price + max(0, baseDCA − baseDCA·f3)` beyond
interest; in particular, with price 120000, emaShort 110000, sentiment 82,
t1 60, t3 77, baseDCA 20, f3 0, sellFactor 2 and 0.5 BTC held, the day
classifies Reduction with fresh injection 0, 0.01 BTC sold for 1200 into
the reserve, and 20 banked. -/
theorem reduction_day_spec (p : Params) (s : VState) (d : MarketDay)
    (hz : classifyZone d.price d.ema20 d.ema50 (effectiveCbbi p d) p.t1 p.t3 =
      Zone.reduction) :
    ((vdcaStep p s d).usd = s.usd + p.baseDCA * p.f3 ∧
     (vdcaStep p s d).btc =
       s.btc - s.btc * (p.sellFactor / 100) + p.baseDCA * p.f3 / d.price ∧
     (vdcaStep p s d).cash =
       s.cash + s.cash * DAILY_INTEREST + s.btc * (p.sellFactor / 100) * d.price +
         max 0 (p.baseDCA - p.baseDCA * p.f3)) ∧
    (classifyZone 120000 110000 100000 82 60 77 = Zone.reduction ∧
     (vdcaStep pRed0 sRed dRed).usd = 0 ∧
     sRed.btc * (pRed0.sellFactor / 100) = 1 / 100 ∧
     sRed.btc * (pRed0.sellFactor / 100) * dRed.price = 1200 ∧
     (vdcaStep pRed0 sRed dRed).cash = 1200 + 20 ∧
     (vdcaStep pRed0 sRed dRed).btc = 49 / 100) :=
  ⟨vdcaStep_reduction p s d hz,
   by norm_num [classifyZone],
   by norm_num [vdcaStep, vdcaBranch, effectiveCbbi, DAILY_INTEREST, pRed0, sRed, dRed],
   by norm_num [pRed0, sRed],
   by norm_num [pRed0, sRed, dRed],
   by norm_num [vdcaStep, vdcaBranch, effectiveCbbi, DAILY_INTEREST, pRed0, sRed, dRed],
   by norm_num [vdcaStep, vdcaBranch, effectiveCbbi, DAILY_INTEREST, pRed0, sRed, dRed]⟩

/-- Witness for C2 (amended): the universal part applied to the scenario's
parameters, the 0.5-BTC state and the scenario day. -/
theorem reduction_day_spec_witness :
    ((vdcaStep pRed0 sRed dRed).usd = sRed.usd + pRed0.baseDCA * pRed0.f3 ∧
     (vdcaStep pRed0 sRed dRed).btc =
       sRed.btc - sRed.btc * (pRed0.sellFactor / 100) + pRed0.baseDCA * pRed0.f3 / dRed.price ∧
     (vdcaStep pRed0 sRed dRed).cash =
       sRed.cash + sRed.cash * DAILY_INTEREST +
         sRed.btc * (pRed0.sellFactor / 100) * dRed.price +
         max 0 (pRed0.baseDCA - pRed0.baseDCA * pRed0.f3)) ∧
    (classifyZone 120000 110000 100000 82 60 77 = Zone.reduction ∧
     (vdcaStep pRed0 sRed dRed).usd = 0 ∧
     sRed.btc * (pRed0.sellFactor / 100) = 1 / 100 ∧
     sRed.btc * (pRed0.sellFactor / 100) * dRed.price = 1200 ∧
     (vdcaStep pRed0 sRed dRed).cash = 1200 + 20 ∧
     (vdcaStep pRed0 sRed dRed).btc = 49 / 100) :=
  reduction_day_spec pRed0 sRed dRed
    (by norm_num [classifyZone, effectiveCbbi, pRed0, dRed])

/-- C4: the classifier's branches are ordered — whenever the accumulation
condition `price < ema50 ∧ cbbi < t1` and the reduction condition
`price > ema20 ∧ cbbi > t3` hold simultaneously, the result is
`accumulation` (first match wins) — and for every input the classifier
returns one of the three labels. -/
theorem zone_priority_total (price ema20 ema50 cbbi t1 t3 : ℚ) :
    (price < ema50 ∧ cbbi < t1 → ema20 < price ∧ t3 < cbbi →
      classifyZone price ema20 ema50 cbbi t1 t3 = Zone.accumulation) ∧
    (classifyZone price ema20 ema50 cbbi t1 t3 = Zone.accumulation ∨
     classifyZone price ema20 ema50 cbbi t1 t3 = Zone.neutral ∨
     classifyZone price ema20 ema50 cbbi t1 t3 = Zone.reduction) := by
  constructor
  · intro h1 _
    exact (classifyZone_eq_accumulation_iff price ema20 ema50 cbbi t1 t3).mpr h1
  · unfold classifyZone
    split_ifs <;> simp

/-- Witness for C4: a day on which both conditions hold (`100 < 200`,
`70 < 80`, `50 < 100`, `60 < 70`) classifies as accumulation. -/
theorem zone_priority_total_witness :
    classifyZone 100 50 200 70 80 60 = Zone.accumulation :=
  (zone_priority_total 100 50 200 70 80 60).1 (by norm_num) (by norm_num)

/-- C9: for the empty input series `runStrategies` returns `none` (JS
`null`), for every parameter set, with no exception — the function is
total. -/
theorem empty_input_returns_none (sqrtf : ℚ → ℚ) (powf : ℚ → ℚ → ℚ) (p : Params) :
    runStrategies sqrtf powf p [] = none := rfl

/-- C6: the recommendation shown by `RecommendationCard` classifies the
`recData` snapshot with the same zone rules as the simulator and computes
the suggested buy amount with the same zone formulas as the simulator's
per-day branch (for any holdings, since the amount ignores them except
through the reserve); and the engine's `recData` is a read-only projection
of the final day and the final V_DCA state. -/
theorem recommendation_matches_simulator (baseDCA t1 t3 f1 f3 sellFactor btc : ℚ)
    (rec : RecData) (sqrtf : ℚ → ℚ) (powf : ℚ → ℚ → ℚ) (p : Params)
    (d0 : MarketDay) (rest : List MarketDay) :
    ((recCard baseDCA t1 t3 f1 f3 rec).1 =
       classifyZone rec.price rec.ema20 rec.ema50 rec.cbbi t1 t3 ∧
     (recCard baseDCA t1 t3 f1 f3 rec).2 =
       (vdcaBranch baseDCA f1 f3 sellFactor t1 t3 rec.price rec.ema20 rec.ema50
         rec.cbbi rec.cash btc).actualBuyUSD) ∧
    (runStrategies sqrtf powf p (d0 :: rest)).map RunResult.recData =
      some
        { date := ((d0 :: rest).getLast (by simp)).date,
          price := ((d0 :: rest).getLast (by simp)).price,
          cbbi := ((d0 :: rest).getLast (by simp)).cbbi,
          ema20 := ((d0 :: rest).getLast (by simp)).ema20,
          ema50 := ((d0 :: rest).getLast (by simp)).ema50,
          ema100 := ((d0 :: rest).getLast (by simp)).ema100,
          cash := (runVdca p rest).cash,
          interest := (runVdca p rest).interest } := by
  constructor
  · unfold recCard vdcaBranch classifyZone
    split_ifs <;> exact ⟨rfl, rfl⟩
  · rfl

/-- C7: for a missing return sequence or one with fewer than two entries,
`calcMetrics` returns the zero-valued record whatever the invested-capital
and value sequences are. -/
theorem metrics_degenerate_zero (sqrtf : ℚ → ℚ) (powf : ℚ → ℚ → ℚ)
    (returns? : Option (List ℚ)) (investedHistory values : List ℚ)
    (h : ∀ rs, returns? = some rs → rs.length < 2) :
    calcMetricsOpt sqrtf powf returns? investedHistory values =
      { sharpe := 0, sortino := 0, yoy := 0 } := by
  cases returns? with
  | none => rfl
  | some rs =>
    simp only [calcMetricsOpt, calcMetrics]
    rw [if_pos (h rs rfl)]

/-- Witness for C7: a one-element return sequence yields the zero record. -/
theorem metrics_degenerate_zero_witness :
    calcMetricsOpt sqrtZero powZero (some [5]) [1, 2] [3, 4] =
      { sharpe := 0, sortino := 0, yoy := 0 } :=
  metrics_degenerate_zero sqrtZero powZero (some [5]) [1, 2] [3, 4]
    (by intro rs h; cases h; norm_num)

/-- Summing a constant list with `foldl` from any accumulator. -/
theorem foldl_add_const (c : ℚ) (l : List ℚ) (hconst : ∀ x ∈ l, x = c) :
    ∀ a : ℚ, l.foldl (· + ·) a = a + l.length * c := by
  induction l with
  | nil => intro a; simp
  | cons x xs ih =>
    intro a
    have hx : x = c := hconst x (List.mem_cons_self x xs)
    have ihs := ih (fun y hy => hconst y (List.mem_cons_of_mem x hy))
    simp only [List.foldl_cons, List.length_cons, hx]
    rw [ihs (a + c)]
    push_cast
    ring

/-- The squared-deviation fold of a constant list about its own value is the
accumulator unchanged. -/
theorem foldl_sq_dev_const (c : ℚ) (l : List ℚ) (hconst : ∀ x ∈ l, x = c) :
    ∀ a : ℚ, l.foldl (fun sq r => sq + (r - c) ^ 2) a = a := by
  induction l with
  | nil => intro a; rfl
  | cons x xs ih =>
    intro a
    have hx : x = c := hconst x (List.mem_cons_self x xs)
    have ihs := ih (fun y hy => hconst y (List.mem_cons_of_mem x hy))
    simp only [List.foldl_cons, ihs, hx]
    ring_nf

/-- The downside fold of a nonnegative-constant list is the accumulator
unchanged (no element is negative). -/
theorem foldl_down_const (c : ℚ) (hc : 0 ≤ c) (l : List ℚ) (hconst : ∀ x ∈ l, x = c) :
    ∀ a : ℚ, l.foldl (fun sq r => if r < 0 then sq + r ^ 2 else sq) a = a := by
  induction l with
  | nil => intro a; rfl
  | cons x xs ih =>
    intro a
    have hx : x = c := hconst x (List.mem_cons_self x xs)
    have ihs := ih (fun y hy => hconst y (List.mem_cons_of_mem x hy))
    simp only [List.foldl_cons, hx, if_neg (not_lt.mpr hc), ihs]

/-- C8: on a constant (zero-variance) return sequence of length ≥ 2 the
annualized standard deviation vanishes exactly, so the Sharpe divisor is
clamped to 1 and Sharpe equals `annualizedMean − riskFreeRate`; when the
constant is nonnegative (no negative returns) the downside deviation also
vanishes and Sortino equals the same difference — no division error, for
any model of `Math.sqrt` with `sqrt 0 = 0`. -/
theorem metrics_constant_returns (sqrtf : ℚ → ℚ) (powf : ℚ → ℚ → ℚ) (c : ℚ)
    (returns investedHistory values : List ℚ)
    (hconst : ∀ x ∈ returns, x = c) (hlen : 2 ≤ returns.length)
    (hsqrt : sqrtf 0 = 0) :
    (calcMetrics sqrtf powf returns investedHistory values).sharpe =
      c * 365 - 45 / 1000 ∧
    (0 ≤ c →
      (calcMetrics sqrtf powf returns investedHistory values).sortino =
        c * 365 - 45 / 1000) := by
  have hn' : ¬ returns.length < 2 := not_lt.mpr hlen
  have hne : (returns.length : ℚ) ≠ 0 := Nat.cast_ne_zero.mpr (by omega)
  have hsum : returns.foldl (· + ·) 0 = (returns.length : ℚ) * c := by
    rw [foldl_add_const c returns hconst 0, zero_add]
  have hmean : returns.foldl (· + ·) 0 / (returns.length : ℚ) = c := by
    rw [hsum, mul_div_cancel_left₀ _ hne]
  have hvar : returns.foldl
      (fun sq r => sq + (r - returns.foldl (· + ·) 0 / (returns.length : ℚ)) ^ 2) 0 = 0 := by
    simp only [hmean]
    exact foldl_sq_dev_const c returns hconst 0
  constructor
  · simp only [calcMetrics]
    rw [if_neg hn']
    dsimp only
    rw [hvar, zero_div, hsqrt, zero_mul, if_pos rfl, div_one, hmean]
  · intro hc
    have hdown : returns.foldl
        (fun sq r => if r < 0 then sq + r ^ 2 else sq) 0 = 0 :=
      foldl_down_const c hc returns hconst 0
    simp only [calcMetrics]
    rw [if_neg hn']
    dsimp only
    rw [hdown, zero_div, hsqrt, zero_mul, if_pos rfl, div_one, hmean]

/-- Witness for C8: the constant return sequence `[1/100, 1/100]` gives
Sharpe and Sortino both equal to `365/100 − 45/1000`. -/
theorem metrics_constant_returns_witness :
    (calcMetrics sqrtZero powZero [1/100, 1/100] [0, 10] [10, 20]).sharpe =
      (1 / 100 : ℚ) * 365 - 45 / 1000 ∧
    (calcMetrics sqrtZero powZero [1/100, 1/100] [0, 10] [10, 20]).sortino =
      (1 / 100 : ℚ) * 365 - 45 / 1000 := by
  have h := metrics_constant_returns sqrtZero powZero (1/100) [1/100, 1/100]
    [0, 10] [10, 20] (by
      intro x hx
      rcases List.mem_cons.mp hx with h | h
      · exact h
      · simpa using h) (by norm_num) rfl
  exact ⟨h.1, h.2 (by norm_num)⟩

/-- Each V_DCA day appends exactly one entry to each of the four history
sequences. -/
theorem vdca_foldl_lengths (p : Params) (l : List MarketDay) :
    ∀ s : VState,
      (l.foldl (vdcaStep p) s).val.length = s.val.length + l.length ∧
      (l.foldl (vdcaStep p) s).investedHistory.length =
        s.investedHistory.length + l.length ∧
      (l.foldl (vdcaStep p) s).cashHistory.length = s.cashHistory.length + l.length ∧
      (l.foldl (vdcaStep p) s).returns.length = s.returns.length + l.length := by
  induction l with
  | nil => intro s; simp
  | cons d ds ih =>
    intro s
    obtain ⟨h1, h2, h3, h4⟩ := ih (vdcaStep p s d)
    have e1 : (vdcaStep p s d).val.length = s.val.length + 1 := by
      simp [vdcaStep]
    have e2 : (vdcaStep p s d).investedHistory.length =
        s.investedHistory.length + 1 := by
      simp [vdcaStep]
    have e3 : (vdcaStep p s d).cashHistory.length = s.cashHistory.length + 1 := by
      simp [vdcaStep]
    have e4 : (vdcaStep p s d).returns.length = s.returns.length + 1 := by
      simp [vdcaStep]
    simp only [List.foldl_cons, List.length_cons, h1, h2, h3, h4, e1, e2, e3, e4]
    omega

/-- Each Standard DCA day appends exactly one entry to each of the four
history sequences. -/
theorem dca_foldl_lengths (scaled : ℚ) (l : List MarketDay) :
    ∀ s : DState,
      (l.foldl (dcaStep scaled) s).val.length = s.val.length + l.length ∧
      (l.foldl (dcaStep scaled) s).investedHistory.length =
        s.investedHistory.length + l.length ∧
      (l.foldl (dcaStep scaled) s).cashHistory.length =
        s.cashHistory.length + l.length ∧
      (l.foldl (dcaStep scaled) s).returns.length = s.returns.length + l.length := by
  induction l with
  | nil => intro s; simp
  | cons d ds ih =>
    intro s
    obtain ⟨h1, h2, h3, h4⟩ := ih (dcaStep scaled s d)
    have e1 : (dcaStep scaled s d).val.length = s.val.length + 1 := by
      simp [dcaStep]
    have e2 : (dcaStep scaled s d).investedHistory.length =
        s.investedHistory.length + 1 := by
      simp [dcaStep]
    have e3 : (dcaStep scaled s d).cashHistory.length = s.cashHistory.length + 1 := by
      simp [dcaStep]
    have e4 : (dcaStep scaled s d).returns.length = s.returns.length + 1 := by
      simp [dcaStep]
    simp only [List.foldl_cons, List.length_cons, h1, h2, h3, h4, e1, e2, e3, e4]
    omega

/-- `pctChanges` produces one return per consecutive pair. -/
theorem pctChanges_length (l : List ℚ) : (pctChanges l).length = l.length - 1 := by
  simp only [pctChanges, List.length_zipWith, List.length_drop]
  omega

theorem vdca_val_length (p : Params) (l : List MarketDay) (s : VState) :
    (l.foldl (vdcaStep p) s).val.length = s.val.length + l.length :=
  (vdca_foldl_lengths p l s).1

theorem vdca_invested_length (p : Params) (l : List MarketDay) (s : VState) :
    (l.foldl (vdcaStep p) s).investedHistory.length =
      s.investedHistory.length + l.length :=
  (vdca_foldl_lengths p l s).2.1

theorem vdca_cashHistory_length (p : Params) (l : List MarketDay) (s : VState) :
    (l.foldl (vdcaStep p) s).cashHistory.length = s.cashHistory.length + l.length :=
  (vdca_foldl_lengths p l s).2.2.1

theorem vdca_returns_length (p : Params) (l : List MarketDay) (s : VState) :
    (l.foldl (vdcaStep p) s).returns.length = s.returns.length + l.length :=
  (vdca_foldl_lengths p l s).2.2.2

theorem dca_val_length (scaled : ℚ) (l : List MarketDay) (s : DState) :
    (l.foldl (dcaStep scaled) s).val.length = s.val.length + l.length :=
  (dca_foldl_lengths scaled l s).1

theorem dca_invested_length (scaled : ℚ) (l : List MarketDay) (s : DState) :
    (l.foldl (dcaStep scaled) s).investedHistory.length =
      s.investedHistory.length + l.length :=
  (dca_foldl_lengths scaled l s).2.1

theorem dca_cashHistory_length (scaled : ℚ) (l : List MarketDay) (s : DState) :
    (l.foldl (dcaStep scaled) s).cashHistory.length =
      s.cashHistory.length + l.length :=
  (dca_foldl_lengths scaled l s).2.2.1

theorem dca_returns_length (scaled : ℚ) (l : List MarketDay) (s : DState) :
    (l.foldl (dcaStep scaled) s).returns.length = s.returns.length + l.length :=
  (dca_foldl_lengths scaled l s).2.2.2

/-- Counterexample to C5 as stated: on a concrete two-day run the HODL
benchmark's state has no `cashHistory` at all (the JS object literal has no
such key, modelled as `none`), so its cash-history length cannot equal the
input length. -/
theorem history_lengths_counterexample :
    (runStrategies sqrtZero powZero pW [dW0, dW1]).map
        (fun r => r.hodl.cashHistory) = some none ∧
    ¬ ((runStrategies sqrtZero powZero pW [dW0, dW1]).map
        (fun r => r.hodl.cashHistory.map List.length) = some (some 2)) :=
  ⟨rfl, fun h => Option.noConfusion (Option.some.inj h)⟩

/-- C5 (amended): for every non-empty input series, the V_DCA and Standard
DCA states satisfy `len(val) = len(invested) = len(cashHistory) = n` and
`len(returns) = n − 1`; the HODL benchmark satisfies the same for
`val`/`invested`/`returns` but carries no cash history (`none`). -/
theorem history_lengths (sqrtf : ℚ → ℚ) (powf : ℚ → ℚ → ℚ) (p : Params)
    (d0 : MarketDay) (rest : List MarketDay) :
    (runStrategies sqrtf powf p (d0 :: rest)).map
        (fun r => (r.vdca.val.length, r.vdca.investedHistory.length,
          r.vdca.cashHistory.map List.length, r.vdca.returns.length)) =
      some ((d0 :: rest).length, (d0 :: rest).length,
        some (d0 :: rest).length, (d0 :: rest).length - 1) ∧
    (runStrategies sqrtf powf p (d0 :: rest)).map
        (fun r => (r.dca.val.length, r.dca.investedHistory.length,
          r.dca.cashHistory.map List.length, r.dca.returns.length)) =
      some ((d0 :: rest).length, (d0 :: rest).length,
        some (d0 :: rest).length, (d0 :: rest).length - 1) ∧
    (runStrategies sqrtf powf p (d0 :: rest)).map
        (fun r => (r.hodl.val.length, r.hodl.investedHistory.length,
          r.hodl.cashHistory, r.hodl.returns.length)) =
      some ((d0 :: rest).length, (d0 :: rest).length,
        none, (d0 :: rest).length - 1) := by
  refine ⟨?_, ?_, ?_⟩ <;>
    simp [runStrategies, runVdca, runDca, vdcaInit, dcaInit,
      vdca_val_length, vdca_invested_length, vdca_cashHistory_length,
      vdca_returns_length, dca_val_length, dca_invested_length,
      dca_cashHistory_length, dca_returns_length, pctChanges_length,
      Nat.add_comm]

/-- The Standard DCA walk adds exactly `scaled` to its contributed capital
each day. -/
theorem dca_foldl_usd (scaled : ℚ) (l : List MarketDay) :
    ∀ s : DState, (l.foldl (dcaStep scaled) s).usd = s.usd + l.length * scaled := by
  induction l with
  | nil => intro s; simp
  | cons d ds ih =>
    intro s
    simp only [List.foldl_cons, List.length_cons]
    rw [ih (dcaStep scaled s d)]
    have h : (dcaStep scaled s d).usd = s.usd + scaled := rfl
    rw [h]
    push_cast
    ring

/-- The Baseline's final contributed capital equals the V_DCA total it was
matched against, for every non-empty post-seed day list. -/
theorem runDca_usd_matches (p : Params) (rest : List MarketDay) :
    (runDca (scaledDailyDCA (runVdca p rest).usd (rest.length + 1))
        p.initialCapital rest).usd = (runVdca p rest).usd := by
  unfold runDca
  rw [dca_foldl_usd]
  have h0 : (dcaInit p.initialCapital).usd = 0 := rfl
  rw [h0, zero_add]
  rcases List.eq_nil_or_concat rest with hnil | ⟨l, d, rfl⟩
  · subst hnil
    simp [runVdca, vdcaInit, scaledDailyDCA]
  · simp only [List.concat_eq_append]
    have hcond : ¬(((((l ++ [d]).length + 1 : ℕ) : ℤ)) - 1 = 0) := by
      simp only [List.length_append, List.length_cons, List.length_nil]
      push_cast
      omega
    unfold scaledDailyDCA
    rw [if_neg hcond]
    have hne : (((l ++ [d]).length : ℚ)) ≠ 0 := by
      have h1 : 0 < (l ++ [d]).length := by simp
      positivity
    push_cast
    field_simp

/-- C3: the Capital-Matched Baseline's constant daily contribution is the
V_DCA run's final contributed capital divided by `numDays − 1` (whenever the
series has at least two days), and the Baseline's final contributed capital
equals the V_DCA final contributed capital exactly, for every non-empty
series and parameter set. -/
theorem baseline_capital_matched (sqrtf : ℚ → ℚ) (powf : ℚ → ℚ → ℚ)
    (p : Params) (d0 : MarketDay) (rest : List MarketDay) :
    ((runStrategies sqrtf powf p (d0 :: rest)).map (fun r => r.dca.usd) =
      (runStrategies sqrtf powf p (d0 :: rest)).map (fun r => r.vdca.usd)) ∧
    (1 ≤ rest.length →
      scaledDailyDCA (runVdca p rest).usd (d0 :: rest).length =
        (runVdca p rest).usd / (((d0 :: rest).length : ℚ) - 1)) := by
  constructor
  · show some ((runDca (scaledDailyDCA (runVdca p rest).usd (rest.length + 1))
        p.initialCapital rest).usd) = some ((runVdca p rest).usd)
    exact congrArg some (runDca_usd_matches p rest)
  · intro hlen
    have hcond : ¬((((d0 :: rest).length : ℕ) : ℤ) - 1 = 0) := by
      simp only [List.length_cons]
      push_cast
      omega
    unfold scaledDailyDCA
    rw [if_neg hcond]
    push_cast
    norm_num

/-- Witness for C3: on the two-day witness series the Baseline contributes
exactly the V_DCA total, and its daily constant is that total divided by 1. -/
theorem baseline_capital_matched_witness :
    ((runStrategies sqrtZero powZero pW [dW0, dW1]).map (fun r => r.dca.usd) =
      (runStrategies sqrtZero powZero pW [dW0, dW1]).map (fun r => r.vdca.usd)) ∧
    scaledDailyDCA (runVdca pW [dW1]).usd [dW0, dW1].length =
      (runVdca pW [dW1]).usd / (([dW0, dW1].length : ℚ) - 1) := by
  have h := baseline_capital_matched sqrtZero powZero pW dW0 [dW1]
  exact ⟨h.1, h.2 (by norm_num)⟩

/-- One V_DCA day preserves non-negativity of the cash reserve and the BTC
holdings, given non-negative parameters, a sell factor of at most 100% and a
positive price. -/
theorem vdcaStep_nonneg (p : Params) (s : VState) (d : MarketDay)
    (hb : 0 ≤ p.baseDCA) (hf1 : 0 ≤ p.f1) (hf3 : 0 ≤ p.f3)
    (hsf0 : 0 ≤ p.sellFactor) (hsf1 : p.sellFactor ≤ 100)
    (hprice : 0 < d.price) (hc : 0 ≤ s.cash) (hbtc : 0 ≤ s.btc) :
    0 ≤ (vdcaStep p s d).cash ∧ 0 ≤ (vdcaStep p s d).btc := by
  have hDI : (0 : ℚ) ≤ DAILY_INTEREST := by norm_num [DAILY_INTEREST]
  have hc0 : 0 ≤ s.cash + s.cash * DAILY_INTEREST :=
    add_nonneg hc (mul_nonneg hc hDI)
  have hsell : 0 ≤ s.btc * (p.sellFactor / 100) :=
    mul_nonneg hbtc (by positivity)
  have hsell2 : s.btc * (p.sellFactor / 100) ≤ s.btc := by
    calc s.btc * (p.sellFactor / 100) ≤ s.btc * 1 := by
          apply mul_le_mul_of_nonneg_left _ hbtc
          linarith
      _ = s.btc := mul_one _
  have htarget : 0 ≤ p.baseDCA * p.f3 + (s.cash + s.cash * DAILY_INTEREST) / 15 :=
    add_nonneg (mul_nonneg hb hf3) (div_nonneg hc0 (by norm_num))
  have hmin : 0 ≤ min (s.cash + s.cash * DAILY_INTEREST)
      (p.baseDCA * p.f3 + (s.cash + s.cash * DAILY_INTEREST) / 15) :=
    le_min hc0 htarget
  simp only [vdcaStep, vdcaBranch]
  split_ifs with h1 h2 h3
  · exact ⟨sub_nonneg.mpr (min_le_left _ _),
      add_nonneg hbtc (div_nonneg (add_nonneg (mul_nonneg hb hf1) hmin) hprice.le)⟩
  · exact ⟨add_nonneg (add_nonneg hc0 (mul_nonneg hsell hprice.le)) h3.le,
      add_nonneg (sub_nonneg.mpr hsell2) (div_nonneg (mul_nonneg hb hf3) hprice.le)⟩
  · exact ⟨add_nonneg hc0 (mul_nonneg hsell hprice.le),
      add_nonneg (sub_nonneg.mpr hsell2) (div_nonneg (mul_nonneg hb hf3) hprice.le)⟩
  · exact ⟨hc0, add_nonneg hbtc (div_nonneg hb hprice.le)⟩

/-- Non-negativity is preserved along the whole walk, from any state with a
non-negative reserve and holdings. -/
theorem vdca_foldl_nonneg (p : Params) (hb : 0 ≤ p.baseDCA) (hf1 : 0 ≤ p.f1)
    (hf3 : 0 ≤ p.f3) (hsf0 : 0 ≤ p.sellFactor) (hsf1 : p.sellFactor ≤ 100)
    (l : List MarketDay) (hp : ∀ d ∈ l, 0 < d.price) :
    ∀ s : VState, 0 ≤ s.cash → 0 ≤ s.btc →
      0 ≤ (l.foldl (vdcaStep p) s).cash ∧ 0 ≤ (l.foldl (vdcaStep p) s).btc := by
  induction l with
  | nil => intro s hc hbtc; exact ⟨hc, hbtc⟩
  | cons d ds ih =>
    intro s hc hbtc
    have hd := hp d (List.mem_cons_self d ds)
    have hstep := vdcaStep_nonneg p s d hb hf1 hf3 hsf0 hsf1 hd hc hbtc
    simp only [List.foldl_cons]
    exact ih (fun x hx => hp x (List.mem_cons_of_mem d hx))
      (vdcaStep p s d) hstep.1 hstep.2

/-- C10: with positive prices, non-negative `initialCapital`, `baseDCA`,
`f1`, `f3` and a sell factor between 0 and 100, the V_DCA reserve and
holdings are non-negative after every day of the walk (the state after day
`k` is this walk over the first `k` post-seed days, an instance of the
quantifier over `l`): the drain is capped at the available reserve and a
sale removes at most 100% of holdings. -/
theorem reserves_nonneg (p : Params) (l : List MarketDay)
    (hic : 0 ≤ p.initialCapital) (hb : 0 ≤ p.baseDCA) (hf1 : 0 ≤ p.f1)
    (hf3 : 0 ≤ p.f3) (hsf0 : 0 ≤ p.sellFactor) (hsf1 : p.sellFactor ≤ 100)
    (hp : ∀ d ∈ l, 0 < d.price) :
    0 ≤ (runVdca p l).cash ∧ 0 ≤ (runVdca p l).btc :=
  vdca_foldl_nonneg p hb hf1 hf3 hsf0 hsf1 l hp
    (vdcaInit p.initialCapital) hic le_rfl

/-- Witness for C10: an accumulation day followed by a reduction day under
the scenario parameters keeps reserve and holdings non-negative. -/
theorem reserves_nonneg_witness :
    0 ≤ (runVdca pAcc [dAcc, dRed]).cash ∧ 0 ≤ (runVdca pAcc [dAcc, dRed]).btc :=
  reserves_nonneg pAcc [dAcc, dRed]
    (by norm_num [pAcc]) (by norm_num [pAcc]) (by norm_num [pAcc])
    (by norm_num [pAcc]) (by norm_num [pAcc]) (by norm_num [pAcc])
    (by
      intro d hd
      rcases List.mem_cons.mp hd with h | h
      · subst h; norm_num [dAcc]
      · simp only [List.mem_singleton] at h
        subst h; norm_num [dRed])

end Theorems

end AlphaRise
